import Mathlib

/-!
Verification of the `PubSubMFE` repository (src/src/PubSubMFE.js) against its
natural-language specification.

The file embeds the two JavaScript classes shallowly:

* `DataObservable` (the per-channel buffered multicast stream) becomes the
  state type `StreamState` together with explicit state-passing functions
  `setStateT`, `subscribe`, `unsubscribe`, `pause`, `resume`, `unsubscribeAll`,
  `clearBuffer`, `getBufferL`, `getObserverCount`, `getReplayPolicyS`.
  Subscriber callbacks are opaque in the source (their only observable effect
  is being invoked), so a delivery to a subscription is recorded as an event
  `(subscription id, value)`; the list of events produced by an operation, in
  order, is the sequence of callback invocations the JavaScript performs
  before that operation returns.  Each `subscribe` call in the source builds a
  fresh `filteredObserver` closure with its own captured `paused` flag and
  `replay` closure; the model gives each subscription a fresh numeric id whose
  closure state (`SubState`) survives in `StreamState.subs` even after the
  observer is removed from `StreamState.observers`, exactly as the JavaScript
  closures survive removal from the `observers` array.  The write-only
  `observerState` bookkeeping object of the source is never read by any code
  path and is omitted.
* `PubSubMFE` (the channel registry) becomes `constructPubSub` (a transition
  on the process-wide static state `PubSubGlobal`, mirroring the class statics
  `store['default']` and `firstInstanceParams['default']`) and registry
  operations on a `Registry` record.  JavaScript `undefined` is the
  `JSValue.undef` constructor; an absent option is `Option.none`.  A channel
  name is modelled as a `String`, with the JavaScript falsy check `!channel`
  holding exactly for the empty string.

JavaScript values are modelled by the inductive `JSValue`; exceptions by
`Option String` error components carrying the thrown message.
-/

/-- A JavaScript value, as published on a channel.  `undef` is the JavaScript
`undefined` sentinel. -/
inductive JSValue where
  | undef
  | null
  | bool (b : Bool)
  | num (n : Int)
  | str (s : String)
deriving DecidableEq, Repr

/-- The per-subscription closure state created by `DataObservable.subscribe`:
the captured `filter` and `replayPolicy` options and the mutable `paused`
flag. -/
structure SubState where
  filter : Option (JSValue → Bool)
  replayOverride : Option String
  paused : Bool

/-- State of one `DataObservable` instance.  `observers` holds the ids of the
`filteredObserver` closures currently in the `observers` array, in insertion
order; `subs` maps each ever-created subscription id to its closure state
(closures outlive removal from `observers`); `nextId` generates fresh ids. -/
structure StreamState where
  bufferSize : Nat
  replayPolicy : String
  buffer : List JSValue
  observers : List Nat
  subs : List (Nat × SubState)
  nextId : Nat

/-- The `ObservableConfig` / stream-config object: a plain JavaScript object
with optional `bufferSize` and `replayPolicy` keys (an explicitly-`undefined`
key is modelled as absent). -/
structure ObservableConfig where
  bufferSize : Option Nat
  replayPolicy : Option String
deriving DecidableEq, Repr

/-- `new DataObservable(config)`: destructure with defaults
`bufferSize = 1`, `replayPolicy = 'last'`, start with empty buffer and no
observers. -/
def mkStream (config : ObservableConfig) : StreamState :=
  { bufferSize := config.bufferSize.getD 1
    replayPolicy := config.replayPolicy.getD "last"
    buffer := []
    observers := []
    subs := []
    nextId := 0 }

/-- Look up the closure state of subscription `id`. -/
def findSub (subs : List (Nat × SubState)) (id : Nat) : Option SubState :=
  (subs.find? (fun p => p.1 == id)).map (fun p => p.2)

/-- Evaluation of an optional filter predicate: `(!filter || filter(value))`. -/
def passes (fil : Option (JSValue → Bool)) (v : JSValue) : Bool :=
  match fil with
  | none => true
  | some f => f v

/-- The guard inside the `filteredObserver` closure:
`!paused && (!filter || filter(value))`; the callback runs iff this holds. -/
def filteredDeliver (sub : SubState) (v : JSValue) : Bool :=
  !sub.paused && passes sub.filter v

/-- The buffer update performed at the top of `DataObservable.setState`:
`buffer.push(value); if (buffer.length > bufferSize) buffer.shift();`. -/
def bufferPush (k : Nat) (buf : List JSValue) (v : JSValue) : List JSValue :=
  let b := buf ++ [v]
  if b.length > k then b.tail else b

/-- The `observers.forEach(observer => observer(value))` loop of `setState`.
`throws id v = true` means the callback of subscription `id` throws when
invoked with `v`.  Returns the delivery events performed, in order, and
whether the loop aborted with an exception (a JavaScript `forEach` stops at
the first throw; the throwing callback was itself invoked). -/
def deliverLoop (subs : List (Nat × SubState)) (throws : Nat → JSValue → Bool)
    (v : JSValue) : List Nat → List (Nat × JSValue) × Bool
  | [] => ([], false)
  | id :: rest =>
    match findSub subs id with
    | none => deliverLoop subs throws v rest
    | some sub =>
      if filteredDeliver sub v then
        if throws id v then ([(id, v)], true)
        else
          let r := deliverLoop subs throws v rest
          ((id, v) :: r.1, r.2)
      else deliverLoop subs throws v rest

/-- Result of a `setState` (publish) call: the state after the call, the
callback invocations performed, and whether a subscriber exception propagated
out of `setState`. -/
structure PublishResult where
  stream : StreamState
  events : List (Nat × JSValue)
  errored : Bool

/-- `DataObservable.setState(value)` with a given callback-throwing behaviour:
push `value` into the buffer (evicting the oldest entry when over capacity),
then walk the observers in insertion order. -/
def setStateT (st : StreamState) (throws : Nat → JSValue → Bool)
    (v : JSValue) : PublishResult :=
  let st1 := { st with buffer := bufferPush st.bufferSize st.buffer v }
  let r := deliverLoop st1.subs throws v st1.observers
  ⟨st1, r.1, r.2⟩

/-- The callback-throwing behaviour in which no callback ever throws. -/
def noThrow : Nat → JSValue → Bool := fun _ _ => false

/-- `DataObservable.setState(value)` when no callback throws. -/
def setState (st : StreamState) (v : JSValue) : PublishResult :=
  setStateT st noThrow v

/-- The candidate values the `replay` closure walks: `buffer.slice(-1)` under
an effective LAST policy, the whole buffer under an effective ALL policy, and
nothing otherwise.  The branch structure is that of the source:
`replayPolicy === 'last' || (replayPolicy === undefined && this.replayPolicy
=== 'last')`, then the analogous test for `'all'`. -/
def replayCandidates (streamPolicy : String) (sub : SubState)
    (buf : List JSValue) : List JSValue :=
  if sub.replayOverride = some "last" ∨
      (sub.replayOverride = none ∧ streamPolicy = "last") then
    buf.drop (buf.length - 1)
  else if sub.replayOverride = some "all" ∨
      (sub.replayOverride = none ∧ streamPolicy = "all") then
    buf
  else []

/-- The deliveries the `replay` closure performs for subscription `id`: each
candidate value is fed through the subscription's `filteredObserver`, which
applies the `paused` and `filter` guards. -/
def replayEvents (streamPolicy : String) (sub : SubState) (buf : List JSValue)
    (id : Nat) : List (Nat × JSValue) :=
  (replayCandidates streamPolicy sub buf).filterMap
    (fun v => if filteredDeliver sub v then some (id, v) else none)

/-- Result of a `subscribe` call: the state after the call, the id of the new
subscription (its returned handle), and the replay deliveries performed
before `subscribe` returned. -/
structure SubscribeResult where
  stream : StreamState
  id : Nat
  events : List (Nat × JSValue)

/-- `DataObservable.subscribe(callback, { filter, replayPolicy })`: create the
`filteredObserver` closure (fresh id, `paused = false`), push it onto
`observers`, then run `replay()` once before returning. -/
def subscribe (st : StreamState) (fil : Option (JSValue → Bool))
    (rp : Option String) : SubscribeResult :=
  let id := st.nextId
  let sub : SubState := ⟨fil, rp, false⟩
  let st1 := { st with
    observers := st.observers ++ [id]
    subs := st.subs ++ [(id, sub)]
    nextId := id + 1 }
  ⟨st1, id, replayEvents st1.replayPolicy sub st1.buffer id⟩

/-- The handle's `unsubscribe()`:
`observers = observers.filter(o => o !== filteredObserver)`.  The closure
state itself survives (the handle still references it). -/
def unsubscribe (st : StreamState) (id : Nat) : StreamState :=
  { st with observers := st.observers.filter (fun o => o ≠ id) }

/-- Write the `paused` flag captured by subscription `id`'s closure. -/
def setPaused (subs : List (Nat × SubState)) (id : Nat) (b : Bool) :
    List (Nat × SubState) :=
  subs.map (fun p => if p.1 = id then (p.1, { p.2 with paused := b }) else p)

/-- The handle's `pause()`: `paused = true`. -/
def pause (st : StreamState) (id : Nat) : StreamState :=
  { st with subs := setPaused st.subs id true }

/-- Result of a handle's `resume()` call: state after the call and the replay
deliveries it performed. -/
structure ResumeResult where
  stream : StreamState
  events : List (Nat × JSValue)

/-- The handle's `resume()`: `paused = false; replay();`.  The `replay`
closure runs against the stream's current buffer, whether or not the
`filteredObserver` is still in the `observers` array. -/
def resume (st : StreamState) (id : Nat) : ResumeResult :=
  let st1 := { st with subs := setPaused st.subs id false }
  match findSub st1.subs id with
  | none => ⟨st1, []⟩
  | some sub => ⟨st1, replayEvents st1.replayPolicy sub st1.buffer id⟩

/-- `DataObservable.getBuffer()`: returns the buffer contents (the list-level
view; the aliasing behaviour of the returned array is modelled separately by
`getBufferRT` below). -/
def getBufferL (st : StreamState) : List JSValue :=
  st.buffer

/-- `DataObservable.clearBuffer()`: `buffer = []`. -/
def clearBuffer (st : StreamState) : StreamState :=
  { st with buffer := [] }

/-- `DataObservable.getObserverCount()`: `observers.length`. -/
def getObserverCount (st : StreamState) : Nat :=
  st.observers.length

/-- `DataObservable.unsubscribeAll()`: `observers = []`. -/
def unsubscribeAll (st : StreamState) : StreamState :=
  { st with observers := [] }

/-- `DataObservable.getReplayPolicy()`. -/
def getReplayPolicyS (st : StreamState) : String :=
  st.replayPolicy

/-- Publish a whole sequence of values in order (no callback throws). -/
def publishAll (st : StreamState) (vs : List JSValue) : StreamState :=
  vs.foldl (fun s v => (setState s v).stream) st

/-! ### The channel registry (`class PubSubMFE`) -/

/-- A channel-name → stream map (`Map` contents, in insertion order). -/
abbrev StoreMap : Type := List (String × StreamState)

/-- Look up a channel in a store (`store.get` / `store.has`). -/
def storeFind (m : StoreMap) (channel : String) : Option StreamState :=
  (m.find? (fun p => p.1 == channel)).map (fun p => p.2)

/-- `store.set(channel, ob)`: overwrite an existing entry, else append. -/
def storeSet (m : StoreMap) (channel : String) (ob : StreamState) : StoreMap :=
  if (m.find? (fun p => p.1 == channel)).isSome then
    m.map (fun p => if p.1 = channel then (channel, ob) else p)
  else m ++ [(channel, ob)]

/-- The constructor parameters `{ storeMap, ObservableConfig }`.  `storeMap`
is `some m` when the caller passed a usable backing map (a `Map` instance, or
an object whose `default` property is one); `none` when the parameter is
absent or unusable, in which case the process-wide shared map is bound. -/
structure Params where
  storeMap : Option StoreMap
  observableConfig : ObservableConfig

/-- The class statics: `PubSubMFE.firstInstanceParams['default']` and the
lazily-created shared map `PubSubMFE.store['default']`. -/
structure PubSubGlobal where
  firstInstanceParams : Option Params
  sharedStore : Option StoreMap

/-- The statics before any instance has been constructed. -/
def initialGlobal : PubSubGlobal := ⟨none, none⟩

/-- An instance's own fields: `this.store` and `this.config`.  `usesShared`
records whether `this.store` is the shared map (whose contents then live in
`PubSubGlobal.sharedStore`) or the caller-supplied map held in `store`. -/
structure Registry where
  usesShared : Bool
  store : StoreMap
  config : ObservableConfig

/-- `Object.keys(config).length` is nonzero. -/
def configNonEmpty (c : ObservableConfig) : Bool :=
  c.bufferSize.isSome || c.replayPolicy.isSome

/-- `PubSubMFE._isEqual` specialised to the flat two-key config shape it is
applied to: the generic deep comparison succeeds on two plain config objects
exactly when they present the same keys with equal primitive values. -/
def isEqualCfg (c1 c2 : ObservableConfig) : Bool :=
  c1.bufferSize == c2.bufferSize && c1.replayPolicy == c2.replayPolicy

/-- `new PubSubMFE(params)`: record the first instance's params, bind a store
(the supplied map, else the lazily-created shared map), then either guard the
existing `default` channel's config or install a fresh `DataObservable` under
`default`.  Returns the updated statics and the constructed instance, or the
thrown error message. -/
def constructPubSub (g : PubSubGlobal) (params : Params) :
    Except String (PubSubGlobal × Registry) :=
  let firstP := g.firstInstanceParams.getD params
  let g1 : PubSubGlobal := { g with firstInstanceParams := some firstP }
  let shared := g1.sharedStore.getD []
  let usesShared := params.storeMap.isNone
  let storeToUse := params.storeMap.getD shared
  if (storeFind storeToUse "default").isSome then
    if configNonEmpty params.observableConfig then
      if !isEqualCfg firstP.observableConfig params.observableConfig then
        .error "channel default already exists, cannot pass ObservableConfig"
      else
        .ok ({ g1 with sharedStore :=
                if usesShared then some storeToUse else g1.sharedStore },
             ⟨usesShared, storeToUse, params.observableConfig⟩)
    else
      .ok ({ g1 with sharedStore :=
              if usesShared then some storeToUse else g1.sharedStore },
           ⟨usesShared, storeToUse, params.observableConfig⟩)
  else
    let store1 := storeSet storeToUse "default" (mkStream params.observableConfig)
    .ok ({ g1 with sharedStore :=
            if usesShared then some store1 else g1.sharedStore },
         ⟨usesShared, store1, params.observableConfig⟩)

/-- `PubSubMFE._generateObservable(channel)`: create the channel's
`DataObservable` with this instance's config if absent. -/
def generateObservable (r : Registry) (channel : String) : Registry :=
  if (storeFind r.store channel).isSome then r
  else { r with store := storeSet r.store channel (mkStream r.config) }

/-- Result of a registry-level `setState`: the thrown error message (if any),
the registry afterwards, and the callback invocations performed. -/
structure RegistryPublishResult where
  error : Option String
  registry : Registry
  events : List (Nat × JSValue)

/-- `PubSubMFE.setState(channel, newState)`: validate the channel name
(JavaScript `!channel`, i.e. the empty string) and that the value is not
`undefined`, both before touching the store; then lazily create the channel
and delegate to the stream's `setState`. -/
def registrySetState (r : Registry) (channel : String) (v : JSValue) :
    RegistryPublishResult :=
  if channel = "" then ⟨some "Channel is required", r, []⟩
  else if v = JSValue.undef then ⟨some "New state is required", r, []⟩
  else
    let r1 := generateObservable r channel
    match storeFind r1.store channel with
    | some st =>
      let pr := setState st v
      ⟨none, { r1 with store := storeSet r1.store channel pr.stream }, pr.events⟩
    | none => ⟨none, r1, []⟩

/-! ### Reference-level model of `getBuffer` (array aliasing)

`getBuffer()` is `return this.buffer;`: it returns the internal array object
itself, not a copy.  To express what mutating the returned array does, the
array heap is explicit here: `JSHeap` maps array references (indices) to
contents, a stream's `buffer` field is a reference, and `getBufferRT` returns
that reference, exactly as the source returns the object reference. -/

/-- The array heap: reference `r` names the array `arrays[r]`. -/
structure JSHeap where
  arrays : List (List JSValue)
deriving DecidableEq, Repr

/-- The reference-level view of a stream: its `buffer` field holds an array
reference into the heap. -/
structure StreamRT where
  bufferRef : Nat
deriving DecidableEq, Repr

/-- Dereference an array. -/
def readArray (h : JSHeap) (r : Nat) : List JSValue :=
  h.arrays.getD r []

/-- Replace the contents of array `r`. -/
def writeArray (h : JSHeap) (r : Nat) (a : List JSValue) : JSHeap :=
  ⟨h.arrays.set r a⟩

/-- `arr.push(v)` performed through a reference `r` held by the caller. -/
def arrayPush (h : JSHeap) (r : Nat) (v : JSValue) : JSHeap :=
  writeArray h r (readArray h r ++ [v])

/-- `DataObservable.getBuffer()` at the reference level: `return this.buffer;`
hands back the internal array reference itself. -/
def getBufferRT (s : StreamRT) : Nat :=
  s.bufferRef

/-- The stream's internal buffer contents as seen through the heap. -/
def internalBuffer (h : JSHeap) (s : StreamRT) : List JSValue :=
  readArray h s.bufferRef

/-! ### Buffer lemmas -/

lemma setState_stream_buffer (st : StreamState) (v : JSValue) :
    (setState st v).stream.buffer = bufferPush st.bufferSize st.buffer v := rfl

lemma setState_stream_bufferSize (st : StreamState) (v : JSValue) :
    (setState st v).stream.bufferSize = st.bufferSize := rfl

lemma publishAll_buffer (vs : List JSValue) :
    ∀ st : StreamState,
      (publishAll st vs).buffer = vs.foldl (bufferPush st.bufferSize) st.buffer := by
  induction vs with
  | nil => intro st; rfl
  | cons v vs ih =>
    intro st
    show (publishAll (setState st v).stream vs).buffer = _
    rw [ih]
    rfl

lemma bufferPush_drop (k : Nat) (ws : List JSValue) (v : JSValue) :
    bufferPush k (ws.drop (ws.length - k)) v
      = (ws ++ [v]).drop ((ws ++ [v]).length - k) := by
  rcases Nat.lt_or_ge ws.length k with hk | hk
  · have h0 : ws.length - k = 0 := by omega
    have h1 : (ws ++ [v]).length - k = 0 := by simp; omega
    rw [h0, h1]
    simp only [List.drop_zero, bufferPush]
    rw [if_neg]
    simp
    omega
  · rcases Nat.eq_zero_or_pos k with hk0 | hkpos
    · subst hk0
      simp only [Nat.sub_zero, List.drop_length, bufferPush]
      rw [if_pos (by simp)]
      rfl
    · have hd : (ws.drop (ws.length - k)).length = k := by
        rw [List.length_drop]; omega
      simp only [bufferPush]
      rw [if_pos (by simp [hd])]
      rw [← List.drop_one, List.drop_append_of_le_length (by omega),
        List.drop_drop, List.drop_append_of_le_length (by simp; omega)]
      simp only [List.length_append, List.length_singleton]
      congr 2
      omega

lemma bufferFoldAux (k : Nat) (vs : List JSValue) :
    ∀ ws : List JSValue,
      vs.foldl (bufferPush k) (ws.drop (ws.length - k))
        = (ws ++ vs).drop ((ws ++ vs).length - k) := by
  induction vs with
  | nil => intro ws; simp
  | cons v vs ih =>
    intro ws
    rw [List.foldl_cons, bufferPush_drop, ih (ws ++ [v])]
    simp

lemma bufferFold (k : Nat) (vs : List JSValue) :
    vs.foldl (bufferPush k) [] = vs.drop (vs.length - k) := by
  simpa using bufferFoldAux k vs []

/-- C1: for every stream created with `bufferSize = k` (`k` positive) and
every sequence of published values, after every prefix `p` of the publishes
the buffer holds exactly the last `min k |p|` published values in publish
order (oldest first) and in particular never exceeds `k`; and when more than
`k` values were published, `getBuffer()` returns exactly the last `k`
published values, oldest first. -/
theorem C1_bounded_buffer (k : Nat) (hk : 0 < k) (st : StreamState)
    (hsize : st.bufferSize = k) (hbuf : st.buffer = [])
    (vs : List JSValue) :
    (∀ p, p <+: vs →
        (publishAll st p).buffer = p.drop (p.length - k) ∧
        (publishAll st p).buffer.length ≤ k) ∧
    (vs.length > k →
        getBufferL (publishAll st vs) = vs.drop (vs.length - k) ∧
        (getBufferL (publishAll st vs)).length = k) := by
  have key : ∀ p : List JSValue,
      (publishAll st p).buffer = p.drop (p.length - k) := by
    intro p
    rw [publishAll_buffer, hsize, hbuf, bufferFold]
  constructor
  · intro p _
    refine ⟨key p, ?_⟩
    rw [key p, List.length_drop]
    omega
  · intro hlen
    refine ⟨key vs, ?_⟩
    show (publishAll st vs).buffer.length = k
    rw [key vs, List.length_drop]
    omega

/-- Witness for C1 at `k = 2` and publishes `[1, 2, 3]`. -/
theorem C1_bounded_buffer_witness :
    getBufferL (publishAll (mkStream ⟨some 2, none⟩)
        [JSValue.num 1, JSValue.num 2, JSValue.num 3])
      = [JSValue.num 2, JSValue.num 3] := by
  have h := (C1_bounded_buffer 2 (by decide) (mkStream ⟨some 2, none⟩) rfl rfl
      [JSValue.num 1, JSValue.num 2, JSValue.num 3]).2 (by decide)
  rw [h.1]
  decide

/-! ### Delivery and replay lemmas -/

/-- Whether the `filteredObserver` of subscription `id` would run its callback
on `v`: it must exist and be unpaused with a passing filter. -/
def eligible (subs : List (Nat × SubState)) (id : Nat) (v : JSValue) : Bool :=
  match findSub subs id with
  | none => false
  | some sub => filteredDeliver sub v

lemma eligible_of_findSub {subs : List (Nat × SubState)} {id : Nat}
    {sub : SubState} (h : findSub subs id = some sub) (v : JSValue) :
    eligible subs id v = filteredDeliver sub v := by
  unfold eligible
  rw [h]

lemma deliverLoop_noThrow (subs : List (Nat × SubState)) (v : JSValue) :
    ∀ obs : List Nat,
      deliverLoop subs noThrow v obs
        = ((obs.filter (fun id => eligible subs id v)).map (fun id => (id, v)),
           false) := by
  intro obs
  induction obs with
  | nil => rfl
  | cons id rest ih =>
    cases hfs : findSub subs id with
    | none =>
      simp only [deliverLoop, hfs]
      rw [ih]
      simp [List.filter_cons, eligible, hfs]
    | some sub =>
      by_cases hfd : filteredDeliver sub v = true
      · simp only [deliverLoop, hfs]
        rw [if_pos hfd, show noThrow id v = false from rfl]
        simp only [Bool.false_eq_true, if_false]
        rw [ih]
        simp [List.filter_cons, eligible_of_findSub hfs, hfd]
      · simp only [deliverLoop, hfs]
        rw [if_neg hfd, ih]
        simp only [Bool.not_eq_true] at hfd
        simp [List.filter_cons, eligible_of_findSub hfs, hfd]

lemma setState_events (st : StreamState) (v : JSValue) :
    (setState st v).events
      = (st.observers.filter (fun id => eligible st.subs id v)).map
          (fun id => (id, v)) := by
  show (deliverLoop st.subs noThrow v st.observers).1 = _
  rw [deliverLoop_noThrow]

lemma setState_errored (st : StreamState) (v : JSValue) :
    (setState st v).errored = false := by
  show (deliverLoop st.subs noThrow v st.observers).2 = false
  rw [deliverLoop_noThrow]

lemma setState_mem_events (st : StreamState) (id : Nat) (v : JSValue) :
    (id, v) ∈ (setState st v).events
      ↔ id ∈ st.observers ∧ eligible st.subs id v = true := by
  rw [setState_events]
  constructor
  · intro h
    obtain ⟨a, ha, heq⟩ := List.mem_map.mp h
    obtain ⟨hmem, helig⟩ := List.mem_filter.mp ha
    cases heq
    exact ⟨hmem, helig⟩
  · intro ⟨hmem, helig⟩
    exact List.mem_map.mpr ⟨id, List.mem_filter.mpr ⟨hmem, helig⟩, rfl⟩

lemma filterMapIf (p : JSValue → Bool) (id : Nat) (l : List JSValue) :
    (l.filterMap fun v => if p v then some (id, v) else none)
      = (l.filter p).map (fun v => (id, v)) := by
  induction l with
  | nil => rfl
  | cons a l ih => by_cases h : p a <;> simp [List.filter_cons, h, ih]

lemma replayEvents_eq (pol : String) (sub : SubState) (buf : List JSValue)
    (id : Nat) :
    replayEvents pol sub buf id
      = ((replayCandidates pol sub buf).filter (fun v => filteredDeliver sub v)).map
          (fun v => (id, v)) := by
  unfold replayEvents
  rw [filterMapIf]

lemma dropLengthSubOne (l : List JSValue) :
    l.drop (l.length - 1)
      = (match l.getLast? with | none => [] | some v => [v]) := by
  induction l using List.reverseRecOn with
  | nil => rfl
  | append_singleton ws v _ =>
    rw [List.drop_append_of_le_length (by simp)]
    simp [List.drop_length]

lemma replayCandidates_last {pol : String} {sub : SubState}
    (h : sub.replayOverride = some "last" ∨
      (sub.replayOverride = none ∧ pol = "last")) (buf : List JSValue) :
    replayCandidates pol sub buf = buf.drop (buf.length - 1) := by
  unfold replayCandidates
  rw [if_pos h]

lemma replayCandidates_all {pol : String} {sub : SubState}
    (h : sub.replayOverride = some "all" ∨
      (sub.replayOverride = none ∧ pol = "all")) (buf : List JSValue) :
    replayCandidates pol sub buf = buf := by
  have hneg : ¬(sub.replayOverride = some "last" ∨
      (sub.replayOverride = none ∧ pol = "last")) := by
    rcases h with h | ⟨h1, h2⟩
    · simp [h]
    · simp [h1, h2]
  unfold replayCandidates
  rw [if_neg hneg, if_pos h]

lemma replayCandidates_other {pol : String} {sub : SubState} {s : String}
    (hov : sub.replayOverride = some s) (h1 : s ≠ "last") (h2 : s ≠ "all")
    (buf : List JSValue) :
    replayCandidates pol sub buf = [] := by
  have hneg1 : ¬(sub.replayOverride = some "last" ∨
      (sub.replayOverride = none ∧ pol = "last")) := by
    simp [hov, h1]
  have hneg2 : ¬(sub.replayOverride = some "all" ∨
      (sub.replayOverride = none ∧ pol = "all")) := by
    simp [hov, h2]
  unfold replayCandidates
  rw [if_neg hneg1, if_neg hneg2]

lemma subscribe_events (st : StreamState) (fil : Option (JSValue → Bool))
    (rp : Option String) :
    (subscribe st fil rp).events
      = replayEvents st.replayPolicy ⟨fil, rp, false⟩ st.buffer st.nextId := rfl

lemma filteredDeliver_unpaused (fil : Option (JSValue → Bool))
    (rp : Option String) (v : JSValue) :
    filteredDeliver ⟨fil, rp, false⟩ v = passes fil v := by
  simp [filteredDeliver]

/-- C2: the replay a new subscription receives before `subscribe` returns is
governed by its effective policy — the per-subscription override when one is
given, else the stream default — and respects its filter: under effective
policy `last` it is exactly the most recent buffered value, once (nothing when
the buffer is empty, nothing when the filter rejects it); under effective
policy `all` it is every buffered value that passes the filter, oldest to
newest. -/
theorem C2_replay_on_subscribe (st : StreamState)
    (fil : Option (JSValue → Bool)) (rp : Option String) :
    ((rp = some "last" ∨ (rp = none ∧ st.replayPolicy = "last")) →
      (subscribe st fil rp).events
        = (match st.buffer.getLast? with
           | none => []
           | some v =>
             if passes fil v then [((subscribe st fil rp).id, v)] else [])) ∧
    ((rp = some "all" ∨ (rp = none ∧ st.replayPolicy = "all")) →
      (subscribe st fil rp).events
        = (st.buffer.filter (passes fil)).map
            (fun v => ((subscribe st fil rp).id, v))) := by
  constructor
  · intro h
    rw [subscribe_events, replayEvents_eq, replayCandidates_last h,
      dropLengthSubOne]
    cases hl : st.buffer.getLast? with
    | none => rfl
    | some v =>
      show ([v].filter fun w => filteredDeliver ⟨fil, rp, false⟩ w).map _ = _
      by_cases hp : passes fil v = true
      · simp [List.filter_cons, filteredDeliver_unpaused, hp]
        rfl
      · simp only [Bool.not_eq_true] at hp
        simp [List.filter_cons, filteredDeliver_unpaused, hp]
  · intro h
    rw [subscribe_events, replayEvents_eq, replayCandidates_all h]
    have : (fun v => filteredDeliver ⟨fil, rp, false⟩ v) = passes fil := by
      funext v
      exact filteredDeliver_unpaused fil rp v
    rw [this]
    rfl

/-- A concrete stream used by witnesses: `bufferSize = 2`,
`replayPolicy = 'last'`, buffer `[1, 2]`, no subscriptions yet. -/
def demoStream : StreamState :=
  { bufferSize := 2
    replayPolicy := "last"
    buffer := [JSValue.num 1, JSValue.num 2]
    observers := []
    subs := []
    nextId := 0 }

/-- Witness for C2: subscribing to `demoStream` (default policy `last`,
buffer `[1, 2]`) immediately delivers exactly `2` once; with an `all`
override it delivers `[1, 2]` in order. -/
theorem C2_replay_on_subscribe_witness :
    (subscribe demoStream none none).events = [(0, JSValue.num 2)] ∧
    (subscribe demoStream none (some "all")).events
      = [(0, JSValue.num 1), (0, JSValue.num 2)] := by
  constructor
  · have h := (C2_replay_on_subscribe demoStream none none).1 (Or.inr ⟨rfl, rfl⟩)
    rw [h]
    decide
  · have h := (C2_replay_on_subscribe demoStream none (some "all")).2
      (Or.inl rfl)
    rw [h]
    decide

/-- C3: `setState` delivers the published value synchronously and in
subscription-insertion order to exactly the subscriptions that are unpaused
and whose filter (if present) accepts the value: the event list is the
in-order restriction of `observers` to the eligible subscriptions, a
subscription receives the value iff it is registered, unpaused and its filter
accepts the value, and no callback error escapes when no callback throws. -/
theorem C3_publish_delivery (st : StreamState) (v : JSValue) :
    ((setState st v).events
      = (st.observers.filter (fun id => eligible st.subs id v)).map
          (fun id => (id, v))) ∧
    ((setState st v).errored = false) ∧
    (∀ (id : Nat) (sub : SubState), findSub st.subs id = some sub →
      ((id, v) ∈ (setState st v).events
        ↔ id ∈ st.observers ∧ sub.paused = false ∧ passes sub.filter v = true)) := by
  refine ⟨setState_events st v, setState_errored st v, ?_⟩
  intro id sub hsub
  rw [setState_mem_events, eligible_of_findSub hsub]
  unfold filteredDeliver
  constructor
  · intro ⟨hmem, hb⟩
    simp only [Bool.and_eq_true, Bool.not_eq_true'] at hb
    exact ⟨hmem, hb.1, hb.2⟩
  · intro ⟨hmem, hp, hf⟩
    refine ⟨hmem, ?_⟩
    simp [hp, hf]

lemma deliverLoop_throw (subs : List (Nat × SubState))
    (throws : Nat → JSValue → Bool) (v : JSValue) (t : Nat) (post : List Nat)
    (ht : eligible subs t v = true) (htthrow : throws t v = true) :
    ∀ pre : List Nat,
      (∀ id ∈ pre, ¬(eligible subs id v = true ∧ throws id v = true)) →
      deliverLoop subs throws v (pre ++ t :: post)
        = ((pre.filter (fun id => eligible subs id v)).map (fun id => (id, v))
            ++ [(t, v)], true) := by
  intro pre
  induction pre with
  | nil =>
    intro _
    cases hfs : findSub subs t with
    | none =>
      exfalso
      simp [eligible, hfs] at ht
    | some sub =>
      have hfd : filteredDeliver sub v = true := by
        rw [eligible_of_findSub hfs] at ht
        exact ht
      simp only [List.nil_append, deliverLoop, hfs]
      rw [if_pos hfd, if_pos htthrow]
      simp
  | cons a pre ih =>
    intro hpre
    have ha := hpre a (List.mem_cons_self a pre)
    have hrest : ∀ id ∈ pre, ¬(eligible subs id v = true ∧ throws id v = true) :=
      fun id hid => hpre id (List.mem_cons_of_mem a hid)
    cases hfs : findSub subs a with
    | none =>
      simp only [List.cons_append, deliverLoop, hfs, List.append_eq]
      rw [ih hrest]
      simp [List.filter_cons, eligible, hfs]
    | some sub =>
      by_cases hfd : filteredDeliver sub v = true
      · have hathrow : throws a v = false := by
          by_contra hc
          rw [Bool.not_eq_false] at hc
          exact ha ⟨by rw [eligible_of_findSub hfs]; exact hfd, hc⟩
        simp only [List.cons_append, deliverLoop, hfs, List.append_eq]
        rw [if_pos hfd, hathrow]
        simp only [Bool.false_eq_true, if_false]
        rw [ih hrest]
        simp [List.filter_cons, eligible_of_findSub hfs, hfd]
      · simp only [List.cons_append, deliverLoop, hfs, List.append_eq]
        rw [if_neg hfd, ih hrest]
        simp only [Bool.not_eq_true] at hfd
        simp [List.filter_cons, eligible_of_findSub hfs, hfd]

lemma setStateT_events (st : StreamState) (throws : Nat → JSValue → Bool)
    (v : JSValue) :
    (setStateT st throws v).events
      = (deliverLoop st.subs throws v st.observers).1 := rfl

lemma setStateT_errored (st : StreamState) (throws : Nat → JSValue → Bool)
    (v : JSValue) :
    (setStateT st throws v).errored
      = (deliverLoop st.subs throws v st.observers).2 := rfl

/-- C5: when the callback of subscription `t` throws while `setState`
delivers `v` (and no eligible subscription before `t` in the pass throws),
the error propagates out of `setState`, the delivery pass stops at `t` — the
events are exactly the eligible deliveries before `t` followed by the
delivery to `t`, and no later subscription is notified — and the value was
already appended to the buffer (with FIFO eviction) before delivery began. -/
theorem C5_fail_fast (st : StreamState) (throws : Nat → JSValue → Bool)
    (v : JSValue) (pre post : List Nat) (t : Nat)
    (hobs : st.observers = pre ++ t :: post)
    (hpre : ∀ id ∈ pre, ¬(eligible st.subs id v = true ∧ throws id v = true))
    (ht : eligible st.subs t v = true) (htthrow : throws t v = true) :
    (setStateT st throws v).errored = true ∧
    (setStateT st throws v).stream.buffer
      = bufferPush st.bufferSize st.buffer v ∧
    (setStateT st throws v).events
      = (pre.filter (fun id => eligible st.subs id v)).map (fun id => (id, v))
          ++ [(t, v)] ∧
    (∀ id ∈ post, id ∉ pre → id ≠ t →
      (id, v) ∉ (setStateT st throws v).events) := by
  have hkey : deliverLoop st.subs throws v st.observers
      = ((pre.filter (fun id => eligible st.subs id v)).map (fun id => (id, v))
          ++ [(t, v)], true) := by
    rw [hobs]
    exact deliverLoop_throw st.subs throws v t post ht htthrow pre hpre
  have hev : (setStateT st throws v).events
      = (pre.filter (fun id => eligible st.subs id v)).map (fun id => (id, v))
          ++ [(t, v)] := by
    rw [setStateT_events, hkey]
  refine ⟨by rw [setStateT_errored, hkey], rfl, hev, ?_⟩
  intro id _ hnpre hne hmem
  rw [hev] at hmem
  rcases List.mem_append.mp hmem with h | h
  · obtain ⟨a, ha, heq⟩ := List.mem_map.mp h
    cases heq
    exact hnpre (List.mem_filter.mp ha).1
  · simp only [List.mem_singleton, Prod.mk.injEq] at h
    exact hne h.1

/-- A throwing behaviour for the C5 witness: the callback of subscription `0`
always throws. -/
def demoThrows : Nat → JSValue → Bool := fun id _ => id == 0

/-- A stream with two unfiltered, unpaused subscriptions (ids 0 and 1) used
by the C5 witness. -/
def demoStream2 : StreamState :=
  { bufferSize := 1
    replayPolicy := "last"
    buffer := []
    observers := [0, 1]
    subs := [(0, ⟨none, none, false⟩), (1, ⟨none, none, false⟩)]
    nextId := 2 }

/-- Witness for C5: with subscription 0 throwing, publishing 5 to
`demoStream2` errors, delivers only to subscription 0, buffers the value, and
never notifies subscription 1. -/
theorem C5_fail_fast_witness :
    (setStateT demoStream2 demoThrows (JSValue.num 5)).errored = true ∧
    (setStateT demoStream2 demoThrows (JSValue.num 5)).events
      = [(0, JSValue.num 5)] ∧
    (setStateT demoStream2 demoThrows (JSValue.num 5)).stream.buffer
      = [JSValue.num 5] ∧
    (1, JSValue.num 5) ∉ (setStateT demoStream2 demoThrows (JSValue.num 5)).events := by
  have h := C5_fail_fast demoStream2 demoThrows (JSValue.num 5) [] [1] 0
    rfl (by simp) (by decide) (by decide)
  refine ⟨h.1, by simpa using h.2.2.1, ?_, h.2.2.2 1 (by simp) (by simp) (by decide)⟩
  rw [h.2.1]
  decide

lemma findSub_setPaused (subs : List (Nat × SubState)) (id : Nat) (b : Bool) :
    findSub (setPaused subs id b) id
      = (findSub subs id).map
          (fun s => (⟨s.filter, s.replayOverride, b⟩ : SubState)) := by
  induction subs with
  | nil => rfl
  | cons p subs ih =>
    by_cases h : p.1 = id
    · simp only [setPaused, List.map_cons, if_pos h, findSub]
      rw [List.find?_cons_of_pos _ (by simp [h]),
        List.find?_cons_of_pos _ (by simp [h])]
      rfl
    · simp only [setPaused, List.map_cons, if_neg h, findSub]
      rw [List.find?_cons_of_neg _ (by simp [h]),
        List.find?_cons_of_neg _ (by simp [h])]
      exact ih

lemma resume_eq (st : StreamState) (id : Nat) (sub : SubState)
    (hsub : findSub st.subs id = some sub) :
    resume st id
      = ⟨{ st with subs := setPaused st.subs id false },
         replayEvents st.replayPolicy ⟨sub.filter, sub.replayOverride, false⟩
           st.buffer id⟩ := by
  unfold resume
  simp only [findSub_setPaused, hsub, Option.map_some']

/-- The setting of the C4 scenario: a fresh `bufferSize = 1`, policy `last`
stream into which `7` has been published. -/
def c4Stream : StreamState :=
  (setState (mkStream ⟨some 1, some "last"⟩) (JSValue.num 7)).stream

/-- Subscribing to `c4Stream` with no options: subscription id 0. -/
def c4Sub : SubscribeResult := subscribe c4Stream none none

/-- The stream after calling `unsubscribe()` on subscription 0's handle. -/
def c4Removed : StreamState := unsubscribe c4Sub.stream c4Sub.id

/-- Counterexample to C4 as stated: subscription 0 has been removed (the
observer list is empty), yet calling `resume()` on its already-issued handle
delivers the buffered value `7` to its callback — a further delivery after
removal, so `resume` on a removed handle is not a no-op. -/
theorem C4_counterexample :
    c4Removed.observers = [] ∧
    (resume c4Removed c4Sub.id).events = [(0, JSValue.num 7)] := by
  constructor
  · rfl
  · rfl

/-- C4 amended: after a subscription is removed — by `unsubscribe()` or by
`unsubscribeAll()` — its callback receives no further deliveries from
`setState` (publish), `unsubscribe()` is idempotent, and `pause()` on the
removed handle triggers no delivery either; however `resume()` on the
already-issued handle still re-runs the replay procedure against the current
buffer and can deliver buffered values to the callback. -/
theorem C4_amended_removal (st : StreamState) (id : Nat) (v : JSValue)
    (sub : SubState) (hsub : findSub st.subs id = some sub) :
    ((id, v) ∉ (setState (unsubscribe st id) v).events) ∧
    (unsubscribe (unsubscribe st id) id = unsubscribe st id) ∧
    ((setState (unsubscribeAll st) v).events = []) ∧
    ((id, v) ∉ (setState (pause (unsubscribe st id) id) v).events) ∧
    ((resume (unsubscribe st id) id).events
      = replayEvents st.replayPolicy ⟨sub.filter, sub.replayOverride, false⟩
          st.buffer id) := by
  refine ⟨?_, ?_, ?_, ?_, ?_⟩
  · intro hmem
    rw [setState_mem_events] at hmem
    have := (List.mem_filter.mp hmem.1).2
    simp at this
  · simp [unsubscribe, List.filter_filter]
  · rw [setState_events]
    rfl
  · intro hmem
    rw [setState_mem_events] at hmem
    have := (List.mem_filter.mp hmem.1).2
    simp at this
  · rw [resume_eq (unsubscribe st id) id sub hsub]
    rfl

/-- Witness for the amended C4 at the concrete scenario of the
counterexample: after removing subscription 0, a further publish of `9` never
reaches it, while `resume()` on the removed handle still replays the buffered
`7`. -/
theorem C4_amended_removal_witness :
    ((0, JSValue.num 9)
      ∉ (setState (unsubscribe c4Sub.stream 0) (JSValue.num 9)).events) ∧
    ((resume (unsubscribe c4Sub.stream 0) 0).events
      = replayEvents "last" ⟨none, none, false⟩ [JSValue.num 7] 0) := by
  have h := C4_amended_removal c4Sub.stream 0 (JSValue.num 9)
    ⟨none, none, false⟩ rfl
  exact ⟨h.1, h.2.2.2.2⟩

/-- C6: a paused subscription is never live-delivered a published value;
`resume()` sets `paused = false` and, before returning, re-runs the very
replay procedure a fresh `subscribe` with the same options would run against
the current buffer (per the subscription's effective replay policy,
respecting its filter); and after `resume()` live delivery reaches the
subscription again. -/
theorem C6_pause_resume (st : StreamState) (id : Nat) (sub : SubState)
    (v : JSValue) (hsub : findSub st.subs id = some sub) :
    (sub.paused = true → (id, v) ∉ (setState st v).events) ∧
    (findSub (resume st id).stream.subs id
        = some ⟨sub.filter, sub.replayOverride, false⟩ ∧
      (resume st id).events
        = replayEvents st.replayPolicy ⟨sub.filter, sub.replayOverride, false⟩
            st.buffer id ∧
      (resume st id).events.map Prod.snd
        = (subscribe st sub.filter sub.replayOverride).events.map Prod.snd) ∧
    (id ∈ st.observers → passes sub.filter v = true →
      (id, v) ∈ (setState (resume st id).stream v).events) := by
  refine ⟨?_, ⟨?_, ?_, ?_⟩, ?_⟩
  · intro hp hmem
    rw [setState_mem_events, eligible_of_findSub hsub] at hmem
    have := hmem.2
    rw [filteredDeliver, hp] at this
    simp at this
  · rw [resume_eq st id sub hsub]
    show findSub (setPaused st.subs id false) id = _
    rw [findSub_setPaused, hsub]
    rfl
  · rw [resume_eq st id sub hsub]
  · rw [resume_eq st id sub hsub, subscribe_events]
    show (replayEvents st.replayPolicy ⟨sub.filter, sub.replayOverride, false⟩
        st.buffer id).map Prod.snd = _
    rw [replayEvents_eq, replayEvents_eq]
    simp
  · intro hobs hp
    rw [resume_eq st id sub hsub]
    show (id, v) ∈ (setState { st with subs := setPaused st.subs id false } v).events
    rw [setState_mem_events]
    refine ⟨hobs, ?_⟩
    show eligible (setPaused st.subs id false) id v = true
    rw [eligible_of_findSub (by rw [findSub_setPaused, hsub]; rfl)]
    rw [filteredDeliver]
    simp [hp]

/-- The stream of the C6 witness: `c4Sub.stream` (one unfiltered subscription
with id 0, buffer `[7]`) with subscription 0 paused. -/
def c6Stream : StreamState := pause c4Sub.stream 0

/-- Witness for C6: while paused, subscription 0 does not receive the
published `8`; resuming it replays the buffered value per the stream's `last`
policy, and a publish after the resume reaches it again. -/
theorem C6_pause_resume_witness :
    ((0, JSValue.num 8) ∉ (setState c6Stream (JSValue.num 8)).events) ∧
    ((resume c6Stream 0).events
      = replayEvents "last" ⟨none, none, false⟩ [JSValue.num 7] 0) ∧
    ((0, JSValue.num 8) ∈ (setState (resume c6Stream 0).stream (JSValue.num 8)).events) := by
  have h := C6_pause_resume c6Stream 0 ⟨none, none, true⟩ (JSValue.num 8) rfl
  exact ⟨h.1 rfl, h.2.1.2.1, h.2.2 (by decide) rfl⟩

lemma findSub_append_right (subs : List (Nat × SubState)) (id : Nat)
    (sub : SubState) (h : findSub subs id = none) :
    findSub (subs ++ [(id, sub)]) id = some sub := by
  have hf : subs.find? (fun p => p.1 == id) = none := by
    cases hf : subs.find? (fun p => p.1 == id) with
    | none => rfl
    | some q =>
      unfold findSub at h
      rw [hf] at h
      simp at h
  unfold findSub
  rw [List.find?_append, hf, List.find?_cons_of_pos _ (by simp)]
  rfl

/-- C10: a per-subscription `replayPolicy` override that is neither `'last'`
nor `'all'` makes the replay step deliver nothing at all — both at
`subscribe` time and at `resume` time, whatever the stream's own default
policy is — while values published after the subscription are still
live-delivered to it normally. -/
theorem C10_unknown_replay_policy (st : StreamState)
    (fil : Option (JSValue → Bool)) (s : String)
    (h1 : s ≠ "last") (h2 : s ≠ "all")
    (hfresh : findSub st.subs st.nextId = none) (v : JSValue) :
    ((subscribe st fil (some s)).events = []) ∧
    (∀ (st2 : StreamState) (id : Nat) (sub : SubState),
        findSub st2.subs id = some sub → sub.replayOverride = some s →
        (resume st2 id).events = []) ∧
    (passes fil v = true →
      ((subscribe st fil (some s)).id, v)
        ∈ (setState (subscribe st fil (some s)).stream v).events) := by
  refine ⟨?_, ?_, ?_⟩
  · rw [subscribe_events, replayEvents_eq,
      replayCandidates_other
        (show SubState.replayOverride ⟨fil, some s, false⟩ = some s from rfl)
        h1 h2]
    rfl
  · intro st2 id sub hsub hov
    rw [resume_eq st2 id sub hsub]
    show replayEvents st2.replayPolicy ⟨sub.filter, sub.replayOverride, false⟩
        st2.buffer id = []
    rw [replayEvents_eq,
      replayCandidates_other
        (show SubState.replayOverride ⟨sub.filter, sub.replayOverride, false⟩
            = some s from hov)
        h1 h2]
    rfl
  · intro hp
    show (st.nextId, v)
      ∈ (setState (subscribe st fil (some s)).stream v).events
    rw [setState_mem_events]
    constructor
    · show st.nextId ∈ st.observers ++ [st.nextId]
      exact List.mem_append_right _ (List.mem_singleton.mpr rfl)
    · show eligible (st.subs ++ [(st.nextId, ⟨fil, some s, false⟩)])
          st.nextId v = true
      rw [eligible_of_findSub (findSub_append_right st.subs st.nextId _ hfresh)]
      rw [filteredDeliver]
      simp [hp]

/-- The C10 witness subscription: subscribing to `demoStream` with the
unknown override `'bogus'`. -/
def c10Sub : SubscribeResult := subscribe demoStream none (some "bogus")

/-- Witness for C10: the `'bogus'` override replays nothing at subscribe time
(despite the non-empty buffer) and at resume time, yet a later publish of `5`
is still delivered. -/
theorem C10_unknown_replay_policy_witness :
    (subscribe demoStream none (some "bogus")).events = [] ∧
    (resume c10Sub.stream 0).events = [] ∧
    ((0, JSValue.num 5) ∈ (setState c10Sub.stream (JSValue.num 5)).events) := by
  have h := C10_unknown_replay_policy demoStream none "bogus"
    (by decide) (by decide) rfl (JSValue.num 5)
  exact ⟨h.1, h.2.1 c10Sub.stream 0 ⟨none, some "bogus", false⟩ rfl rfl,
    h.2.2 rfl⟩

/-- The process-wide statics after the very first instance is constructed
with no backing map and config `c1`: its params are recorded and the shared
map holds the `default` channel created from `c1`. -/
def globalAfterFirst (c1 : ObservableConfig) : PubSubGlobal :=
  ⟨some ⟨none, c1⟩, some [("default", mkStream c1)]⟩

/-- C7: starting from a fresh process, constructing a first registry with no
backing map and config `c1` succeeds and populates the shared `default`
channel; a second registry with no backing map then fails with the
configuration-conflict error exactly when it supplies a non-empty config that
is not deep-equal to `c1`, and succeeds when its config is identical or
absent. -/
theorem C7_shared_default_config_guard (c1 c2 : ObservableConfig) :
    (constructPubSub initialGlobal ⟨none, c1⟩
      = Except.ok (globalAfterFirst c1,
          ⟨true, [("default", mkStream c1)], c1⟩)) ∧
    (configNonEmpty c2 = true → isEqualCfg c1 c2 = false →
      constructPubSub (globalAfterFirst c1) ⟨none, c2⟩
        = Except.error
            "channel default already exists, cannot pass ObservableConfig") ∧
    (isEqualCfg c1 c2 = true ∨ configNonEmpty c2 = false →
      (constructPubSub (globalAfterFirst c1) ⟨none, c2⟩).isOk = true) := by
  refine ⟨rfl, ?_, ?_⟩
  · intro hne heq
    simp [constructPubSub, globalAfterFirst, storeFind, List.find?, hne, heq]
  · intro h
    rcases h with heq | hne
    · by_cases hc : configNonEmpty c2 = true
      · simp [constructPubSub, globalAfterFirst, storeFind, List.find?, hc, heq]
        rfl
      · simp only [Bool.not_eq_true] at hc
        simp [constructPubSub, globalAfterFirst, storeFind, List.find?, hc]
        rfl
    · simp [constructPubSub, globalAfterFirst, storeFind, List.find?, hne]
      rfl

/-- Witness for C7: with `c1 = (bufferSize 2)` the second construction fails
for the differing `(bufferSize 3)` config and succeeds for an identical one. -/
theorem C7_shared_default_config_guard_witness :
    (constructPubSub (globalAfterFirst ⟨some 2, none⟩) ⟨none, ⟨some 3, none⟩⟩
      = Except.error
          "channel default already exists, cannot pass ObservableConfig") ∧
    ((constructPubSub (globalAfterFirst ⟨some 2, none⟩)
        ⟨none, ⟨some 2, none⟩⟩).isOk = true) := by
  constructor
  · exact (C7_shared_default_config_guard ⟨some 2, none⟩ ⟨some 3, none⟩).2.1
      (by decide) (by decide)
  · exact (C7_shared_default_config_guard ⟨some 2, none⟩ ⟨some 2, none⟩).2.2
      (Or.inl (by decide))

/-- C8: `Registry.setState(channel, value)` throws iff the channel name is
missing/empty or the value is the `undefined` sentinel — with the
channel-name error taking precedence — and on failure the registry is
untouched (no channel is created, no stream publishes); every other value,
including falsy ones such as `null`, `0`, `false` or `""`, is accepted. -/
theorem C8_setState_validation (r : Registry) (channel : String) (v : JSValue) :
    (((registrySetState r channel v).error ≠ none)
      ↔ (channel = "" ∨ v = JSValue.undef)) ∧
    (channel = "" →
      (registrySetState r channel v).error = some "Channel is required" ∧
      (registrySetState r channel v).registry = r ∧
      (registrySetState r channel v).events = []) ∧
    (channel ≠ "" → v = JSValue.undef →
      (registrySetState r channel v).error = some "New state is required" ∧
      (registrySetState r channel v).registry = r ∧
      (registrySetState r channel v).events = []) := by
  by_cases hch : channel = ""
  · simp [registrySetState, hch]
  · by_cases hv : v = JSValue.undef
    · simp [registrySetState, hch, hv]
    · have herr : (registrySetState r channel v).error = none := by
        unfold registrySetState
        rw [if_neg hch, if_neg hv]
        dsimp only
        rcases hfind : storeFind (generateObservable r channel).store channel
          with _ | st <;> rfl
      refine ⟨?_, fun h => absurd h hch, fun _ hv' => absurd hv' hv⟩
      simp [herr, hch, hv]

/-- An empty registry bound to the shared map, used by the C8 witness. -/
def demoRegistry : Registry := ⟨true, [], ⟨none, none⟩⟩

/-- Witness for C8: the empty channel name and the `undefined` value are
rejected (without touching the registry), while `null` is accepted. -/
theorem C8_setState_validation_witness :
    ((registrySetState demoRegistry "" (JSValue.num 1)).error
        = some "Channel is required" ∧
      (registrySetState demoRegistry "" (JSValue.num 1)).registry
        = demoRegistry) ∧
    ((registrySetState demoRegistry "user" JSValue.undef).error
        = some "New state is required") ∧
    ((registrySetState demoRegistry "user" JSValue.null).error = none) := by
  refine ⟨?_, ?_, ?_⟩
  · have h := (C8_setState_validation demoRegistry "" (JSValue.num 1)).2.1 rfl
    exact ⟨h.1, h.2.1⟩
  · exact ((C8_setState_validation demoRegistry "user" JSValue.undef).2.2
      (by decide) rfl).1
  · have h := (C8_setState_validation demoRegistry "user" JSValue.null).1
    have hnot : ¬((registrySetState demoRegistry "user" JSValue.null).error
        ≠ none) := by
      intro hne
      rcases h.mp hne with h' | h'
      · exact absurd h' (by decide)
      · exact absurd h' (by decide)
    simpa using hnot

/-- The concrete heap of the C9 scenario: one array, the stream's buffer,
holding `[1]`. -/
def c9Heap : JSHeap := ⟨[[JSValue.num 1]]⟩

/-- The C9 stream at the reference level: its buffer is array 0. -/
def c9Stream : StreamRT := ⟨0⟩

/-- Counterexample to C9 as stated: pushing `2` onto the sequence returned by
`getBuffer()` changes the stream's internal buffer — the returned sequence is
not a read-only snapshot. -/
theorem C9_counterexample :
    internalBuffer (arrayPush c9Heap (getBufferRT c9Stream) (JSValue.num 2))
        c9Stream
      ≠ internalBuffer c9Heap c9Stream := by decide

/-- C9 amended: `getBuffer()` returns the current buffer contents, oldest
first, but as the internal buffer array itself rather than a snapshot:
`return this.buffer` hands back the internal array reference, so a push
through the returned sequence appends to the stream's internal buffer. -/
theorem C9_amended_alias (st : StreamState) (h : JSHeap) (s : StreamRT)
    (v : JSValue) (hr : s.bufferRef < h.arrays.length) :
    getBufferL st = st.buffer ∧
    getBufferRT s = s.bufferRef ∧
    internalBuffer (arrayPush h (getBufferRT s) v) s
      = internalBuffer h s ++ [v] := by
  refine ⟨rfl, rfl, ?_⟩
  unfold internalBuffer arrayPush writeArray readArray getBufferRT
  simp [List.getD, hr]

/-- Witness for the amended C9: pushing `2` through the array returned by
`getBuffer()` leaves the internal buffer holding `[1, 2]`. -/
theorem C9_amended_alias_witness :
    internalBuffer (arrayPush c9Heap (getBufferRT c9Stream) (JSValue.num 2))
        c9Stream
      = [JSValue.num 1, JSValue.num 2] := by
  have h := C9_amended_alias demoStream c9Heap c9Stream (JSValue.num 2)
    (by decide)
  rw [h.2.2]
  decide

/-- A stream with an unfiltered subscription 0 and a subscription 1 whose
filter accepts only the value `0`, used by the C3 witness. -/
def c3Stream : StreamState :=
  { bufferSize := 1
    replayPolicy := "last"
    buffer := []
    observers := [0, 1]
    subs := [(0, ⟨none, none, false⟩),
             (1, ⟨some (fun v => v == JSValue.num 0), none, false⟩)]
    nextId := 2 }

/-- Witness for C3: publishing `5` to `c3Stream` reaches only subscription 0;
subscription 1's filter rejects `5`. -/
theorem C3_publish_delivery_witness :
    (setState c3Stream (JSValue.num 5)).events = [(0, JSValue.num 5)] := by
  have h := C3_publish_delivery c3Stream (JSValue.num 5)
  rw [h.1]
  decide
